import Mathlib

/-!
Shallow embedding of src/gdp_utils.py (gdp_trackr): a fetch / clean / pivot /
plot pipeline over pandas DataFrames.

Modelling conventions:
- float64 values are modelled as exact rationals; the pipeline performs no
  arithmetic on them other than the display scaling in plot_gdp.
- a pandas cell is a Cell: None and NaN are both Cell.null.
- a DataFrame built from a list of dicts is a PFrame: explicit column labels
  plus one association list per row; a key absent from a row is a missing cell.
- exceptions are modelled with Except PdError.
-/

namespace GdpTrackr

/-- A single pandas cell: None/NaN, an integer, a float (as an exact rational),
or a string. -/
inductive Cell where
  | null
  | intv (n : ℤ)
  | floatv (q : ℚ)
  | strv (s : String)
deriving DecidableEq

/-- One row of the tidy table produced by the pipeline:
columns country, iso3, year, value. -/
structure Row where
  country : String
  iso3 : String
  year : ℤ
  value : ℚ
deriving DecidableEq

/-- The Python exceptions the pipeline can raise.
keyError models pandas KeyError (missing column label);
valueError models ValueError from int()/float() parsing;
typeError models TypeError and astype coercion failures
(the TypeCoercionError of the design document);
duplicateKey models the ValueError raised by DataFrame.pivot on duplicate
(index, columns) pairs (the DuplicateKeyError of the design document). -/
inductive PdError where
  | keyError
  | valueError
  | typeError
  | duplicateKey
deriving DecidableEq

instance {ε α : Type} [DecidableEq ε] [DecidableEq α] :
    DecidableEq (Except ε α) := fun a b =>
  match a, b with
  | .ok x, .ok y => decidable_of_iff (x = y) (by simp)
  | .ok _, .error _ => isFalse (fun h => Except.noConfusion h)
  | .error _, .ok _ => isFalse (fun h => Except.noConfusion h)
  | .error e, .error f => decidable_of_iff (e = f) (by simp)

/-- The numeric value of a list of decimal digits. -/
def digitsVal (cs : List Char) : ℕ :=
  cs.foldl (fun a c => a * 10 + (c.toNat - 48)) 0

/-- Digits of a decimal literal to a natural number; none if empty or any
character is not a digit. -/
def digitsToNat (cs : List Char) : Option ℕ :=
  if cs = [] then none
  else if cs.all (fun c => c.isDigit) then some (digitsVal cs)
  else none

/-- Python int(s) on a plain decimal string (optional leading minus sign). -/
def pyIntOfString (s : String) : Option ℤ :=
  match s.toList with
  | '-' :: rest => (digitsToNat rest).map (fun n => -(n : ℤ))
  | cs => (digitsToNat cs).map (fun n => (n : ℤ))

/-- Split a character list at the first dot, if any. -/
def breakDot : List Char → List Char × Option (List Char)
  | [] => ([], none)
  | c :: cs =>
    if c = '.' then ([], some cs)
    else
      let p := breakDot cs
      (c :: p.1, p.2)

/-- An unsigned decimal literal (digits with an optional dot and fractional
digits, at least one digit in all) to an exact rational. -/
def parseUnsignedDecimal (cs : List Char) : Option ℚ :=
  match breakDot cs with
  | (ip, none) => (digitsToNat ip).map (fun n => (n : ℚ))
  | (ip, some fp) =>
    if (ip ≠ [] ∨ fp ≠ []) ∧ ip.all (fun c => c.isDigit) ∧
        fp.all (fun c => c.isDigit) then
      some (mkRat (digitsVal ip * 10 ^ fp.length + digitsVal fp) (10 ^ fp.length))
    else none

/-- Python float(s) on a plain decimal string literal. -/
def parseDecimal (s : String) : Option ℚ :=
  match s.toList with
  | '-' :: rest => (parseUnsignedDecimal rest).map (fun q => -q)
  | cs => parseUnsignedDecimal cs

/-- Python float(x) on the cell shapes the API can return: numbers pass
through, decimal strings are parsed, None fails (TypeError). -/
def pyFloat : Cell → Option ℚ
  | .intv n => some ((n : ℚ))
  | .floatv q => some q
  | .strv s => parseDecimal s
  | .null => none

/-! Sorting by (country, year), the key used by sort_values in both
fetch_worldbank_gdp and clean_gdp. pandas sorts by several keys with a
stable lexicographic sort; we use Mathlib's stable insertionSort. String
comparison is code-point lexicographic, as in Python. -/

/-- Code-point lexicographic comparison of character lists. -/
def charListLt : List Char → List Char → Bool
  | [], [] => false
  | [], _ :: _ => true
  | _ :: _, [] => false
  | a :: as, b :: bs =>
    if a < b then true
    else if b < a then false
    else charListLt as bs

/-- Python string comparison: code-point lexicographic order. -/
def strLt (a b : String) : Prop := charListLt a.toList b.toList = true

/-- Reflexive closure of strLt. -/
def strLe (a b : String) : Prop := strLt a b ∨ a = b

instance : DecidableRel strLt := fun a b =>
  decidable_of_iff (charListLt a.toList b.toList = true) Iff.rfl

instance : DecidableRel strLe := fun a b =>
  inferInstanceAs (Decidable (strLt a b ∨ a = b))

theorem charListLt_asymm : ∀ {as bs : List Char},
    charListLt as bs = true → charListLt bs as = false
  | [], [], h => by simp [charListLt] at h
  | [], _ :: _, _ => rfl
  | _ :: _, [], h => by simp [charListLt] at h
  | a :: as, b :: bs, h => by
    dsimp only [charListLt] at h ⊢
    rcases lt_trichotomy a b with hab | hab | hab
    · rw [if_neg (lt_asymm hab), if_pos hab]
    · subst hab
      rw [if_neg (lt_irrefl a), if_neg (lt_irrefl a)] at h ⊢
      exact charListLt_asymm h
    · rw [if_neg (lt_asymm hab), if_pos hab] at h
      exact absurd h (by simp)

theorem charListLt_trans : ∀ {as bs cs : List Char},
    charListLt as bs = true → charListLt bs cs = true →
    charListLt as cs = true
  | [], [], _, h1, _ => by simp [charListLt] at h1
  | [], _ :: _, [], _, h2 => by simp [charListLt] at h2
  | [], _ :: _, _ :: _, _, _ => rfl
  | _ :: _, [], _, h1, _ => by simp [charListLt] at h1
  | _ :: _, _ :: _, [], _, h2 => by simp [charListLt] at h2
  | a :: as, b :: bs, c :: cs, h1, h2 => by
    dsimp only [charListLt] at h1 h2 ⊢
    rcases lt_trichotomy a b with hab | hab | hab
    · rcases lt_trichotomy b c with hbc | hbc | hbc
      · rw [if_pos (lt_trans hab hbc)]
      · subst hbc; rw [if_pos hab]
      · rw [if_neg (lt_asymm hbc), if_pos hbc] at h2
        exact absurd h2 (by simp)
    · subst hab
      rw [if_neg (lt_irrefl a), if_neg (lt_irrefl a)] at h1
      rcases lt_trichotomy a c with hac | hac | hac
      · rw [if_pos hac]
      · subst hac
        rw [if_neg (lt_irrefl a), if_neg (lt_irrefl a)] at h2 ⊢
        exact charListLt_trans h1 h2
      · rw [if_neg (lt_asymm hac), if_pos hac] at h2
        exact absurd h2 (by simp)
    · rw [if_neg (lt_asymm hab), if_pos hab] at h1
      exact absurd h1 (by simp)

theorem charListLt_connex : ∀ {as bs : List Char},
    charListLt as bs = false → charListLt bs as = false → as = bs
  | [], [], _, _ => rfl
  | [], _ :: _, h1, _ => by simp [charListLt] at h1
  | _ :: _, [], _, h2 => by simp [charListLt] at h2
  | a :: as, b :: bs, h1, h2 => by
    dsimp only [charListLt] at h1 h2
    rcases lt_trichotomy a b with hab | hab | hab
    · rw [if_pos hab] at h1
      exact absurd h1 (by simp)
    · subst hab
      rw [if_neg (lt_irrefl a), if_neg (lt_irrefl a)] at h1 h2
      rw [charListLt_connex h1 h2]
    · rw [if_neg (lt_asymm hab), if_pos hab] at h2
      exact absurd h2 (by simp)

theorem strLt_trans {a b c : String} (h1 : strLt a b) (h2 : strLt b c) :
    strLt a c :=
  charListLt_trans h1 h2

theorem strLt_asymm {a b : String} (h1 : strLt a b) (h2 : strLt b a) :
    False := by
  have := charListLt_asymm h1
  rw [h2] at this
  exact Bool.noConfusion this

theorem strLt_irrefl {a : String} (h : strLt a a) : False := strLt_asymm h h

theorem strLt_total (a b : String) : strLt a b ∨ strLt b a ∨ a = b := by
  cases h1 : charListLt a.toList b.toList with
  | true => exact Or.inl h1
  | false =>
    cases h2 : charListLt b.toList a.toList with
    | true => exact Or.inr (Or.inl h2)
    | false =>
      have he : a.toList = b.toList := charListLt_connex h1 h2
      refine Or.inr (Or.inr ?_)
      cases a; cases b
      simp only [String.toList] at he
      rw [he]

theorem strLe_total (a b : String) : strLe a b ∨ strLe b a := by
  rcases strLt_total a b with h | h | h
  · exact Or.inl (Or.inl h)
  · exact Or.inr (Or.inl h)
  · exact Or.inl (Or.inr h)

theorem strLe_trans {a b c : String} (h1 : strLe a b) (h2 : strLe b c) :
    strLe a c := by
  rcases h1 with h1 | rfl
  · rcases h2 with h2 | rfl
    · exact Or.inl (strLt_trans h1 h2)
    · exact Or.inl h1
  · exact h2

instance : IsTotal String strLe := ⟨strLe_total⟩

instance : IsTrans String strLe := ⟨fun _ _ _ => strLe_trans⟩

/-- Lexicographic (string, integer) key order: strictly smaller first
component, or equal first components and ordered second components. -/
def lexCY (p q : String × ℤ) : Prop :=
  strLt p.1 q.1 ∨ (p.1 = q.1 ∧ p.2 ≤ q.2)

/-- Strict version of lexCY. -/
def lexCYlt (p q : String × ℤ) : Prop :=
  strLt p.1 q.1 ∨ (p.1 = q.1 ∧ p.2 < q.2)

instance : DecidableRel lexCY := fun p q =>
  inferInstanceAs (Decidable (strLt p.1 q.1 ∨ (p.1 = q.1 ∧ p.2 ≤ q.2)))

instance : DecidableRel lexCYlt := fun p q =>
  inferInstanceAs (Decidable (strLt p.1 q.1 ∨ (p.1 = q.1 ∧ p.2 < q.2)))

theorem lexCY_total (p q : String × ℤ) : lexCY p q ∨ lexCY q p := by
  rcases strLt_total p.1 q.1 with h | h | h
  · exact Or.inl (Or.inl h)
  · exact Or.inr (Or.inl h)
  · rcases le_total p.2 q.2 with h2 | h2
    · exact Or.inl (Or.inr ⟨h, h2⟩)
    · exact Or.inr (Or.inr ⟨h.symm, h2⟩)

theorem lexCY_trans {p q s : String × ℤ} (h1 : lexCY p q) (h2 : lexCY q s) :
    lexCY p s := by
  rcases h1 with h1 | ⟨e1, y1⟩
  · rcases h2 with h2 | ⟨e2, _⟩
    · exact Or.inl (strLt_trans h1 h2)
    · exact Or.inl (e2 ▸ h1)
  · rcases h2 with h2 | ⟨e2, y2⟩
    · exact Or.inl (e1 ▸ h2)
    · exact Or.inr ⟨e1.trans e2, le_trans y1 y2⟩

theorem lexCYlt_asymm {p q : String × ℤ} (h1 : lexCYlt p q) (h2 : lexCYlt q p) :
    False := by
  rcases h1 with h1 | ⟨e1, y1⟩
  · rcases h2 with h2 | ⟨e2, _⟩
    · exact strLt_asymm h1 h2
    · exact strLt_irrefl (e2 ▸ h1)
  · rcases h2 with h2 | ⟨e2, y2⟩
    · exact strLt_irrefl (e1 ▸ h2)
    · exact absurd y2 (lt_asymm y1)

theorem lexCY_of_lt {p q : String × ℤ} (h : lexCYlt p q) : lexCY p q := by
  rcases h with h | ⟨e, y⟩
  · exact Or.inl h
  · exact Or.inr ⟨e, le_of_lt y⟩

theorem lexCYlt_of_le_of_ne {p q : String × ℤ} (h : lexCY p q) (hne : p ≠ q) :
    lexCYlt p q := by
  rcases h with h | ⟨e, y⟩
  · exact Or.inl h
  · rcases lt_or_eq_of_le y with hy | hy
    · exact Or.inr ⟨e, hy⟩
    · exact absurd (Prod.ext e hy) hne

/-- Sort key of a tidy row, as used by sort_values(["country", "year"]). -/
def rowKey (r : Row) : String × ℤ := (r.country, r.year)

/-- Row order used by sort_values in fetch_worldbank_gdp and clean_gdp. -/
def rowLe (a b : Row) : Prop := lexCY (rowKey a) (rowKey b)

instance : DecidableRel rowLe := fun a b =>
  decidable_of_iff (lexCY (rowKey a) (rowKey b)) Iff.rfl

instance : IsTotal Row rowLe := ⟨fun a b => lexCY_total (rowKey a) (rowKey b)⟩

instance : IsTrans Row rowLe := ⟨fun _ _ _ h1 h2 => lexCY_trans h1 h2⟩

/-- sort_values(["country", "year"]) on a list of tidy rows: a stable sort by
the (country, year) key (pandas uses a stable lexsort for several keys). -/
def sortRows (l : List Row) : List Row := l.insertionSort rowLe

/-! The Fetcher: fetch_worldbank_gdp. The network response is an input of
the model (the single HTTP GET is the only outside effect of the source). -/

/-- One observation object of the API response, giving the fields the source
reads: nested country.value and country.id, the date string, and the value
returned by r.get, which may be null. -/
structure WBRecord where
  countryName : String
  countryId : String
  date : String
  value : Cell
deriving DecidableEq

/-- One element of the top-level JSON array: either a list of observation
records, or any other JSON value (iterating over which fails). -/
inductive ApiElem where
  | recs (rs : List WBRecord)
  | other
deriving DecidableEq

/-- The parsed JSON body of the response: a top-level array, or any non-array
JSON value. -/
inductive ApiData where
  | arr (elems : List ApiElem)
  | nonArr
deriving DecidableEq

/-- records = data[1] if isinstance(data, list) and len(data) > 1 else []. -/
def envelopeRecords : ApiData → ApiElem
  | .arr es => (es[1]?).getD (.recs [])
  | .nonArr => .recs []

/-- The request URL built by fetch_worldbank_gdp (an f-string in the source). -/
def requestUrl (countries_iso3 : List String) (start_year end_year : ℤ)
    (indicator : String) : String :=
  "https://api.worldbank.org/v2/country/" ++ String.intercalate ";" countries_iso3
    ++ "/indicator/" ++ indicator ++ "?format=json&per_page=20000&date="
    ++ toString start_year ++ ":" ++ toString end_year

/-- The dict appended to rows for one record with a non-null value:
int(r["date"]) may raise ValueError, float(val) may raise
ValueError/TypeError. -/
def fetchRow (r : WBRecord) : Except PdError Row :=
  match pyIntOfString r.date with
  | none => .error .valueError
  | some y =>
    match pyFloat r.value with
    | none => .error .valueError
    | some v => .ok ⟨r.countryName, r.countryId, y, v⟩

/-- The rows loop of fetch_worldbank_gdp: records whose value is None are
skipped, every other record is mapped to a row dict. -/
def buildRows : List WBRecord → Except PdError (List Row)
  | [] => .ok []
  | r :: rs =>
    if r.value = Cell.null then buildRows rs
    else do
      let row ← fetchRow r
      let rest ← buildRows rs
      .ok (row :: rest)

/-- The tail of fetch_worldbank_gdp after the rows loop:
pd.DataFrame(rows).sort_values(["country", "year"]).reset_index(drop=True).
This raises KeyError when rows is empty, because pd.DataFrame of an empty
list has no columns at all, so sort_values does not find the label
country. -/
def fetch_core (rs : List WBRecord) : Except PdError (List Row) := do
  let rows ← buildRows rs
  if rows.isEmpty then .error .keyError
  else .ok (sortRows rows)

/-- fetch_worldbank_gdp with the parsed JSON response as an explicit input
(the one network call of the source is the only outside effect; its parsed
body is the model's input). Iterating a non-list second envelope element
raises a TypeError. -/
def fetch_worldbank_gdp (countries_iso3 : List String)
    (start_year end_year : ℤ) (indicator : String) (data : ApiData) :
    Except PdError (List Row) :=
  let _url := requestUrl countries_iso3 start_year end_year indicator
  match envelopeRecords data with
  | .recs rs => fetch_core rs
  | .other => .error .typeError

/-! The Cleaner: clean_gdp over a general DataFrame. -/

/-- A pandas DataFrame built from a list of dicts: explicit column labels and
one association list per row. A key absent from a row is a missing cell. -/
structure PFrame where
  colNames : List String
  rows : List (List (String × Cell))
deriving DecidableEq

/-- Reading one cell of a dict row: an absent key is NaN. -/
def cellOf (row : List (String × Cell)) (c : String) : Cell :=
  (row.lookup c).getD .null

/-- astype("int64") on one cell: integers pass, floats truncate toward zero,
digit strings parse, NaN raises. -/
def coerceYear : Cell → Option ℤ
  | .intv n => some n
  | .floatv q => some (if 0 ≤ q then ⌊q⌋ else ⌈q⌉)
  | .strv s => pyIntOfString s
  | .null => none

/-- astype("float64") on one cell. NaN would stay NaN, but clean_gdp only
applies this after dropna on the value column. -/
def coerceValue : Cell → Option ℚ
  | .intv n => some ((n : ℚ))
  | .floatv q => some q
  | .strv s => parseDecimal s
  | .null => none

/-- The country and iso3 columns are not coerced by clean_gdp; the model
covers frames whose country and iso3 cells are strings (the shape every
pipeline producer emits; pandas would raise a TypeError from the mixed-type
comparison in sort_values otherwise). -/
def asStr : Cell → Option String
  | .strv s => some s
  | _ => none

/-- One row of clean_gdp: project to the four canonical columns and coerce
year and value. -/
def cleanRow (row : List (String × Cell)) : Option Row :=
  match asStr (cellOf row "country"), asStr (cellOf row "iso3"),
      coerceYear (cellOf row "year"), coerceValue (cellOf row "value") with
  | some c, some i, some y, some v => some ⟨c, i, y, v⟩
  | _, _, _, _ => none

/-- cleanRow on every row; none as soon as one row fails to coerce. -/
def cleanRows : List (List (String × Cell)) → Option (List Row)
  | [] => some []
  | row :: rest =>
    match cleanRow row, cleanRows rest with
    | some r, some rs => some (r :: rs)
    | _, _ => none

/-- clean_gdp: select the four canonical columns (KeyError if any is
missing), dropna on value, astype year and value, sort by (country, year),
reset_index(drop=True). The reset index is the positional index of the
resulting list. -/
def clean_gdp (f : PFrame) : Except PdError (List Row) :=
  if "country" ∈ f.colNames ∧ "iso3" ∈ f.colNames ∧
      "year" ∈ f.colNames ∧ "value" ∈ f.colNames then
    match cleanRows (f.rows.filter (fun row => cellOf row "value" ≠ Cell.null)) with
    | some out => .ok (sortRows out)
    | none => .error .typeError
  else .error .keyError

/-- The dict representation of a tidy row, the shape fetch_worldbank_gdp and
clean_gdp both output. -/
def rowToDict (r : Row) : List (String × Cell) :=
  [("country", .strv r.country), ("iso3", .strv r.iso3),
   ("year", .intv r.year), ("value", .floatv r.value)]

/-- A tidy table as a DataFrame with the four canonical columns. -/
def tidyToFrame (l : List Row) : PFrame :=
  ⟨["country", "iso3", "year", "value"], l.map rowToDict⟩

/-- The static ISO3 lookup table of the source (configuration data only). -/
def ISO3 : List (String × String) :=
  [("United Kingdom", "GBR"), ("United States", "USA"), ("Brazil", "BRA"),
   ("Japan", "JPN"), ("China", "CHN"), ("Germany", "DEU"),
   ("Switzerland", "CHE")]

/-! The Reshaper: to_wide. -/

/-- The pivot key of a tidy row, in the (index, columns) order of
df.pivot(index="year", columns="country", values="value"). -/
def key2 (r : Row) : ℤ × String := (r.year, r.country)

/-- The wide table: a year index, country column labels, and the cell matrix
(one inner list per year, one entry per country), with missing cells none. -/
structure Wide where
  index : List ℤ
  columns : List String
  data : List (List (Option ℚ))
deriving DecidableEq

/-- The distinct years of the tidy table in ascending order: the row index
that pivot builds and sort_index keeps sorted. -/
def sortedYears (df : List Row) : List ℤ :=
  ((df.map Row.year).dedup).insertionSort (fun a b => a ≤ b)

/-- The distinct country names of the tidy table in ascending order: the
column labels pivot builds. -/
def sortedCountries (df : List Row) : List String :=
  ((df.map Row.country).dedup).insertionSort strLe

/-- The value of the unique tidy row with the given year and country, if
any (pivot cell contents; unique because pivot rejects duplicate keys). -/
def lookupVal (df : List Row) (y : ℤ) (c : String) : Option ℚ :=
  (df.find? (fun r => decide (r.year = y ∧ r.country = c))).map Row.value

/-- to_wide: df.pivot(index="year", columns="country", values="value")
followed by sort_index. pivot raises ValueError (the design document's
DuplicateKeyError) when two rows share a (year, country) pair. -/
def to_wide (df : List Row) : Except PdError Wide :=
  if (df.map key2).Nodup then
    .ok ⟨sortedYears df, sortedCountries df,
      (sortedYears df).map (fun y =>
        (sortedCountries df).map (fun c => lookupVal df y c))⟩
  else .error .duplicateKey

/-- Cell lookup in a wide table by year and country label. -/
def wcell (w : Wide) (y : ℤ) (c : String) : Option ℚ :=
  match (w.index.zip w.data).find? (fun p => decide (p.1 = y)) with
  | some (_, rowvals) =>
    match (w.columns.zip rowvals).find? (fun p => decide (p.1 = c)) with
    | some (_, v) => v
    | none => none
  | none => none

/-! The melt round-trip harness of the design document. -/

/-- One long-form row of the melted wide table; the cell may be missing. -/
structure MRow where
  country : String
  year : ℤ
  value : Option ℚ
deriving DecidableEq

/-- One long-form row after dropping missing cells. -/
structure Row3 where
  country : String
  year : ℤ
  value : ℚ
deriving DecidableEq

/-- Modelled from the spec: the un-pivot (melt) step of the round-trip
property; the source has no melt of its own. pandas melt stacks the wide
table column by column, one long row per (country, year) cell. -/
def melt (w : Wide) : List MRow :=
  (w.columns.map (fun c =>
    w.index.map (fun y => MRow.mk c y (wcell w y c)))).flatten

/-- Modelled from the spec: dropping the missing cells of the melted table. -/
def dropMissing (l : List MRow) : List Row3 :=
  l.filterMap (fun m => m.value.map (fun v => Row3.mk m.country m.year v))

/-- Order of melted rows by (country, year), the re-sort of the round trip. -/
def row3Le (a b : Row3) : Prop := lexCY (a.country, a.year) (b.country, b.year)

instance : DecidableRel row3Le := fun a b =>
  decidable_of_iff (lexCY (a.country, a.year) (b.country, b.year)) Iff.rfl

instance : IsTotal Row3 row3Le :=
  ⟨fun a b => lexCY_total (a.country, a.year) (b.country, b.year)⟩

instance : IsTrans Row3 row3Le := ⟨fun _ _ _ h1 h2 => lexCY_trans h1 h2⟩

/-- Stable sort of melted rows by (country, year) with contiguous
re-indexing (the positional index of the list). -/
def sortRows3 (l : List Row3) : List Row3 := l.insertionSort row3Le

/-- The projection of a tidy row to the three columns a wide table retains. -/
def proj3 (r : Row) : Row3 := ⟨r.country, r.year, r.value⟩

/-- Modelled from the spec: the whole round trip, pivot then melt then drop
missing cells then re-sort by (country, year). -/
def roundTrip (df : List Row) : Except PdError (List Row3) := do
  let w ← to_wide df
  .ok (sortRows3 (dropMissing (melt w)))

/-- The dict representation of a melted long-form row: the columns the
round trip actually produces (year, country, value; no iso3). -/
def row3ToDict (r : Row3) : List (String × Cell) :=
  [("year", .intv r.year), ("country", .strv r.country),
   ("value", .floatv r.value)]

/-- The melted long-form table as a DataFrame. -/
def meltedToFrame (l : List Row3) : PFrame :=
  ⟨["year", "country", "value"], l.map row3ToDict⟩

/-! The Renderer: plot_gdp. Only its data transform is modelled; the axes
object and the drawing calls have no data content. -/

/-- wide / k on a wide table: a new table with every cell divided by k
(plot_gdp uses k = 10 ^ 12, drawing in trillions). -/
def scaleWide (w : Wide) (k : ℚ) : Wide :=
  ⟨w.index, w.columns, w.data.map (fun row => row.map (Option.map (fun v => v / k)))⟩

/-! A small object-heap model of the pipeline, for the no-mutation claim:
Python names refer to heap cells holding tables; pandas operations without
inplace=True allocate a fresh cell, and an in-place write primitive exists
in the model but is used by no pipeline stage. -/

/-- A table object on the heap: an input frame, a tidy table, or a wide
table. -/
inductive Tbl where
  | frame (f : PFrame)
  | tidy (t : List Row)
  | wide (w : Wide)
deriving DecidableEq

/-- The object heap: cell i holds the i-th allocated table. -/
abbrev Heap := List Tbl

/-- Allocate a fresh object, returning the new heap and the new id. -/
def halloc (h : Heap) (t : Tbl) : Heap × ℕ := (h ++ [t], h.length)

/-- Overwrite an existing object in place: the counterpart of a pandas
inplace=True call or an augmented assignment; no pipeline stage uses it. -/
def hwrite (h : Heap) (i : ℕ) (t : Tbl) : Heap := h.set i t

/-- clean_gdp as a heap program: read the argument object, compute the tidy
table, allocate a fresh object for the result. -/
def clean_gdp_prog (h : Heap) (i : ℕ) : Option (Heap × ℕ) :=
  match h[i]? with
  | some (.frame f) =>
    match clean_gdp f with
    | .ok out => some (halloc h (.tidy out))
    | .error _ => none
  | _ => none

/-- to_wide as a heap program. -/
def to_wide_prog (h : Heap) (i : ℕ) : Option (Heap × ℕ) :=
  match h[i]? with
  | some (.tidy t) =>
    match to_wide t with
    | .ok w => some (halloc h (.wide w))
    | .error _ => none
  | _ => none

/-- plot_gdp as a heap program: (wide / 1e12) allocates a new scaled table
which is what gets drawn; the argument object is only read. -/
def plot_gdp_prog (h : Heap) (i : ℕ) : Option (Heap × ℕ) :=
  match h[i]? with
  | some (.wide w) => some (halloc h (.wide (scaleWide w ((10 : ℚ) ^ 12))))
  | _ => none

/-! Facts about the stable (country, year) sort. -/

theorem sortRows_sorted (l : List Row) : (sortRows l).Sorted rowLe :=
  List.sorted_insertionSort rowLe l

theorem sortRows_perm (l : List Row) : List.Perm (sortRows l) l :=
  List.perm_insertionSort rowLe l

theorem sortRows_eq_of_sorted {l : List Row} (h : l.Sorted rowLe) :
    sortRows l = l :=
  h.insertionSort_eq

/-! Facts about cleanRows and clean_gdp. -/

theorem cleanRows_length {l : List (List (String × Cell))} :
    ∀ {out : List Row}, cleanRows l = some out → out.length = l.length := by
  induction l with
  | nil =>
    intro out h
    simp only [cleanRows, Option.some.injEq] at h
    simp [← h]
  | cons row rest ih =>
    intro out h
    dsimp only [cleanRows] at h
    cases h1 : cleanRow row <;> rw [h1] at h
    · exact absurd h (by simp)
    · cases h2 : cleanRows rest <;> rw [h2] at h
      · exact absurd h (by simp)
      · obtain rfl := (Option.some.inj h).symm
        simp [ih h2]

theorem cleanRows_mem {l : List (List (String × Cell))} :
    ∀ {out : List Row}, cleanRows l = some out →
      (∀ r ∈ out, ∃ row ∈ l, cleanRow row = some r) ∧
      (∀ row ∈ l, ∃ r ∈ out, cleanRow row = some r) := by
  induction l with
  | nil =>
    intro out h
    simp only [cleanRows, Option.some.injEq] at h
    subst h
    simp
  | cons row rest ih =>
    intro out h
    dsimp only [cleanRows] at h
    cases h1 : cleanRow row <;> rw [h1] at h
    · exact absurd h (by simp)
    · cases h2 : cleanRows rest <;> rw [h2] at h
      · exact absurd h (by simp)
      · obtain rfl := (Option.some.inj h).symm
        rename_i r rs
        obtain ⟨ih1, ih2⟩ := ih h2
        constructor
        · intro x hx
          rcases List.mem_cons.1 hx with rfl | hx
          · exact ⟨row, List.mem_cons_self _ _, h1⟩
          · obtain ⟨row2, hm, he⟩ := ih1 x hx
            exact ⟨row2, List.mem_cons_of_mem _ hm, he⟩
        · intro row2 hm
          rcases List.mem_cons.1 hm with rfl | hm
          · exact ⟨r, List.mem_cons_self _ _, h1⟩
          · obtain ⟨x, hx, he⟩ := ih2 row2 hm
            exact ⟨x, List.mem_cons_of_mem _ hx, he⟩

theorem cellOf_rowToDict_value (r : Row) :
    cellOf (rowToDict r) "value" = Cell.floatv r.value := rfl

theorem cleanRow_rowToDict (r : Row) : cleanRow (rowToDict r) = some r := rfl

theorem cleanRows_map_rowToDict : ∀ t : List Row,
    cleanRows (t.map rowToDict) = some t
  | [] => rfl
  | r :: t => by
    dsimp only [List.map, cleanRows]
    rw [cleanRow_rowToDict, cleanRows_map_rowToDict t]

/-- Cleaning a DataFrame that holds an already sorted tidy table gives that
table back: the column check passes, no value is null, every coercion is the
identity, and the stable sort leaves a sorted list unchanged. -/
theorem clean_gdp_tidyToFrame {t : List Row} (h : t.Sorted rowLe) :
    clean_gdp (tidyToFrame t) = .ok t := by
  unfold clean_gdp
  rw [if_pos (by simp [tidyToFrame])]
  have hf : (tidyToFrame t).rows.filter
      (fun row => cellOf row "value" ≠ Cell.null) = t.map rowToDict := by
    apply List.filter_eq_self.mpr
    intro row hm
    obtain ⟨r, _, rfl⟩ := List.mem_map.1 hm
    simp [cellOf_rowToDict_value]
  rw [show (tidyToFrame t).rows = t.map rowToDict from rfl] at hf
  rw [show (tidyToFrame t).rows = t.map rowToDict from rfl, hf,
    cleanRows_map_rowToDict]
  show Except.ok (sortRows t) = Except.ok t
  rw [sortRows_eq_of_sorted h]

/-- Decomposition of a successful clean_gdp call. -/
theorem clean_ok_decomp {f : PFrame} {out : List Row}
    (h : clean_gdp f = .ok out) :
    ∃ mid, cleanRows (f.rows.filter (fun row => cellOf row "value" ≠ Cell.null))
        = some mid ∧ out = sortRows mid := by
  unfold clean_gdp at h
  split at h
  · cases hm : cleanRows (f.rows.filter
        (fun row => cellOf row "value" ≠ Cell.null)) <;> rw [hm] at h
    · exact absurd h (by simp)
    · exact ⟨_, rfl, (Except.ok.inj h).symm⟩
  · exact absurd h (by simp)

/-- C4: clean_gdp is idempotent: whenever clean_gdp succeeds on an input
frame, applying clean_gdp to (the frame holding) its own output returns that
output unchanged. -/
theorem C4_clean_idempotent (f : PFrame) (out : List Row)
    (h : clean_gdp f = .ok out) : clean_gdp (tidyToFrame out) = .ok out := by
  obtain ⟨mid, _, rfl⟩ := clean_ok_decomp h
  exact clean_gdp_tidyToFrame (sortRows_sorted mid)

/-- A concrete unsorted frame with an extra column, a null value, and mixed
year cell types, for the clean_gdp witnesses. -/
def sampleFrame : PFrame :=
  ⟨["country", "iso3", "year", "value", "extra"],
    [[("country", .strv "USA"), ("iso3", .strv "USA"), ("year", .strv "2001"),
      ("value", .intv 7), ("extra", .null)],
     [("country", .strv "Japan"), ("iso3", .strv "JPN"), ("year", .intv 2000),
      ("value", .null)],
     [("country", .strv "Japan"), ("iso3", .strv "JPN"), ("year", .floatv 2000),
      ("value", .floatv 5)]]⟩

/-- What clean_gdp gives on sampleFrame. -/
def sampleOut : List Row :=
  [⟨"Japan", "JPN", 2000, 5⟩, ⟨"USA", "USA", 2001, 7⟩]

/-- C4 witness: cleaning sampleFrame succeeds, and cleaning the output again
reproduces it. -/
theorem C4_clean_idempotent_witness :
    clean_gdp sampleFrame = .ok sampleOut ∧
    clean_gdp (tidyToFrame sampleOut) = .ok sampleOut :=
  ⟨by decide, C4_clean_idempotent sampleFrame sampleOut (by decide)⟩

/-- C5: a successful clean_gdp output is sorted by (country, year), keeps
exactly the input rows whose value cell is not null (so duplicate
(country, year) pairs are retained), and every output row is the
column-projected, year- and value-coerced image of some input row. -/
theorem C5_clean_output_shape (f : PFrame) (out : List Row)
    (h : clean_gdp f = .ok out) :
    out.Sorted rowLe ∧
    out.length = (f.rows.filter
      (fun row => cellOf row "value" ≠ Cell.null)).length ∧
    (∀ r ∈ out, ∃ row ∈ f.rows,
      cellOf row "value" ≠ Cell.null ∧ cleanRow row = some r) ∧
    (∀ row ∈ f.rows, cellOf row "value" ≠ Cell.null →
      ∃ r ∈ out, cleanRow row = some r) := by
  obtain ⟨mid, hm, rfl⟩ := clean_ok_decomp h
  obtain ⟨hmem1, hmem2⟩ := cleanRows_mem hm
  refine ⟨sortRows_sorted mid, ?_, ?_, ?_⟩
  · rw [(sortRows_perm mid).length_eq, cleanRows_length hm]
  · intro r hr
    obtain ⟨row, hrow, he⟩ := hmem1 r ((sortRows_perm mid).mem_iff.1 hr)
    obtain ⟨hin, hp⟩ := List.mem_filter.1 hrow
    exact ⟨row, hin, of_decide_eq_true hp, he⟩
  · intro row hin hnn
    obtain ⟨r, hr, he⟩ :=
      hmem2 row (List.mem_filter.2 ⟨hin, decide_eq_true hnn⟩)
    exact ⟨r, (sortRows_perm mid).mem_iff.2 hr, he⟩

/-- A concrete frame with a duplicate (country, year) pair and a null
value, for the C5 witness. -/
def dupFrame : PFrame :=
  ⟨["country", "iso3", "year", "value"],
    [[("country", .strv "Japan"), ("iso3", .strv "JPN"), ("year", .intv 2000),
      ("value", .floatv 5)],
     [("country", .strv "Japan"), ("iso3", .strv "JP2"), ("year", .intv 2000),
      ("value", .floatv 6)],
     [("country", .strv "Brazil"), ("iso3", .strv "BRA"), ("year", .intv 2001),
      ("value", .null)]]⟩

/-- What clean_gdp gives on dupFrame: both duplicate rows retained, the
null-value row dropped. -/
def dupOut : List Row :=
  [⟨"Japan", "JPN", 2000, 5⟩, ⟨"Japan", "JP2", 2000, 6⟩]

/-- C5 witness: the theorem instantiated at dupFrame; the duplicate pair is
retained and the null-value row dropped. -/
theorem C5_clean_output_shape_witness :
    clean_gdp dupFrame = .ok dupOut ∧ dupOut.length = 2 ∧
    dupOut.Sorted rowLe :=
  ⟨by decide, by decide, (C5_clean_output_shape dupFrame dupOut (by decide)).1⟩

/-- C10: clean_gdp on any frame lacking one of the four canonical columns
(the empty frame included) raises KeyError from the column selection. -/
theorem C10_missing_columns_keyError (f : PFrame)
    (h : ¬("country" ∈ f.colNames ∧ "iso3" ∈ f.colNames ∧
      "year" ∈ f.colNames ∧ "value" ∈ f.colNames)) :
    clean_gdp f = .error .keyError := by
  unfold clean_gdp
  rw [if_neg h]

/-- C10 witness: the completely empty frame and a frame missing only iso3. -/
theorem C10_missing_columns_keyError_witness :
    clean_gdp ⟨[], []⟩ = .error .keyError ∧
    clean_gdp ⟨["country", "year", "value"],
      [[("country", .strv "Japan"), ("year", .intv 2000),
        ("value", .floatv 5)]]⟩ = .error .keyError :=
  ⟨C10_missing_columns_keyError _ (by decide),
   C10_missing_columns_keyError _ (by decide)⟩

/-- C1: at the failing inputs of the claim, the code raises instead of
returning an empty table: a non-list envelope, a one-element envelope, and
an envelope whose second element is an empty record list all make
fetch_worldbank_gdp raise KeyError, because pd.DataFrame of an empty rows
list has no columns and sort_values cannot find the label country. Pivoting
a genuinely empty four-column tidy table does give an empty wide table. -/
theorem C1_empty_envelope_raises :
    fetch_worldbank_gdp ["GBR"] 2000 2022 "NY.GDP.MKTP.CD" ApiData.nonArr
      = .error .keyError ∧
    fetch_worldbank_gdp ["GBR"] 2000 2022 "NY.GDP.MKTP.CD"
      (.arr [.other]) = .error .keyError ∧
    fetch_worldbank_gdp ["GBR"] 2000 2022 "NY.GDP.MKTP.CD"
      (.arr [.other, .recs []]) = .error .keyError ∧
    to_wide [] = .ok ⟨[], [], []⟩ :=
  ⟨by decide, by decide, by decide, by decide⟩

/-! C2: duplicate pivot keys. -/

theorem nodup_key2_iff : ∀ df : List Row,
    ((df.map key2).Nodup ↔
      ∀ y c, df.countP (fun r => decide (r.year = y ∧ r.country = c)) ≤ 1)
  | [] => by simp
  | r :: t => by
    rw [List.map_cons, List.nodup_cons]
    constructor
    · rintro ⟨hnot, hnd⟩ y c
      rw [List.countP_cons]
      by_cases hp : r.year = y ∧ r.country = c
      · have hz : t.countP (fun x => decide (x.year = y ∧ x.country = c)) = 0 := by
          rw [List.countP_eq_zero]
          intro x hx
          simp only [decide_eq_true_eq]
          rintro ⟨hxy, hxc⟩
          exact hnot (List.mem_map.2 ⟨x, hx,
            by simp [key2, hxy, hxc, hp.1, hp.2]⟩)
        rw [hz, decide_eq_true hp]
        simp
      · have hle := ((nodup_key2_iff t).1 hnd) y c
        rw [decide_eq_false hp]
        simpa using hle
    · intro h
      refine ⟨?_, (nodup_key2_iff t).2 (fun y c => ?_)⟩
      · intro hmem
        obtain ⟨x, hx, hkey⟩ := List.mem_map.1 hmem
        have hpos : 0 < t.countP
            (fun s => decide (s.year = r.year ∧ s.country = r.country)) := by
          rw [List.countP_pos_iff]
          refine ⟨x, hx, ?_⟩
          have h1 : x.year = r.year := congrArg Prod.fst hkey
          have h2 : x.country = r.country := congrArg Prod.snd hkey
          simp [h1, h2]
        have hb := h r.year r.country
        rw [List.countP_cons, decide_eq_true ⟨rfl, rfl⟩] at hb
        simp only [if_true] at hb
        omega
      · have hb := h y c
        rw [List.countP_cons] at hb
        omega

/-- C2: to_wide fails with the duplicate-key error exactly when more than
one row shares the same (year, country) pair, and succeeds on every tidy
table without such a duplicate. -/
theorem C2_to_wide_duplicate_key (df : List Row) :
    (to_wide df = .error .duplicateKey ↔
      ∃ y c, 2 ≤ df.countP (fun r => decide (r.year = y ∧ r.country = c))) ∧
    ((∀ y c, df.countP (fun r => decide (r.year = y ∧ r.country = c)) ≤ 1) →
      ∃ w, to_wide df = .ok w) := by
  constructor
  · constructor
    · intro h
      have hn : ¬ (df.map key2).Nodup := by
        intro hn
        unfold to_wide at h
        rw [if_pos hn] at h
        exact absurd h (by simp)
      rw [nodup_key2_iff] at hn
      push_neg at hn
      obtain ⟨y, c, hc⟩ := hn
      exact ⟨y, c, hc⟩
    · rintro ⟨y, c, hc⟩
      unfold to_wide
      rw [if_neg]
      rw [nodup_key2_iff]
      push_neg
      exact ⟨y, c, hc⟩
  · intro h
    have hn : (df.map key2).Nodup := (nodup_key2_iff df).2 h
    unfold to_wide
    rw [if_pos hn]
    exact ⟨_, rfl⟩

/-- A one-row tidy table. -/
def tinyTidy : List Row := [⟨"Japan", "JPN", 2000, 5⟩]

/-- A tidy table with a duplicate (year, country) pair. -/
def dupTidy : List Row :=
  [⟨"Japan", "JPN", 2000, 5⟩, ⟨"Japan", "JPN", 2000, 6⟩]

/-- C2 witness: the duplicate table fails with the duplicate-key error; the
duplicate-free table pivots fine. -/
theorem C2_to_wide_duplicate_key_witness :
    to_wide dupTidy = .error .duplicateKey ∧ ∃ w, to_wide tinyTidy = .ok w :=
  ⟨(C2_to_wide_duplicate_key dupTidy).1.mpr ⟨2000, "Japan", by decide⟩,
   (C2_to_wide_duplicate_key tinyTidy).2
     (fun _ _ => List.countP_le_length _)⟩

/-! C6: null records are skipped; the Japan scenario of the design
document. -/

theorem fetchRow_spec {r : WBRecord} {row : Row} (h : fetchRow r = .ok row) :
    row.country = r.countryName ∧ row.iso3 = r.countryId ∧
    pyIntOfString r.date = some row.year ∧ pyFloat r.value = some row.value := by
  unfold fetchRow at h
  cases hy : pyIntOfString r.date <;> rw [hy] at h
  · exact absurd h (by simp)
  · cases hv : pyFloat r.value <;> rw [hv] at h
    · exact absurd h (by simp)
    · obtain rfl := (Except.ok.inj h).symm
      exact ⟨rfl, rfl, rfl, rfl⟩

theorem buildRows_spec : ∀ {rs : List WBRecord} {rows : List Row},
    buildRows rs = .ok rows →
    rows.length = (rs.filter (fun r => decide (r.value ≠ Cell.null))).length ∧
    ∀ row ∈ rows, ∃ rec ∈ rs, rec.value ≠ Cell.null ∧
      row.country = rec.countryName ∧ row.iso3 = rec.countryId ∧
      pyIntOfString rec.date = some row.year ∧
      pyFloat rec.value = some row.value := by
  intro rs
  induction rs with
  | nil =>
    intro rows h
    obtain rfl := (Except.ok.inj h).symm
    exact ⟨rfl, by simp⟩
  | cons r t ih =>
    intro rows h
    dsimp only [buildRows] at h
    by_cases hz : r.value = Cell.null
    · rw [if_pos hz] at h
      obtain ⟨hl, hm⟩ := ih h
      refine ⟨?_, ?_⟩
      · rw [List.filter_cons_of_neg (by simp [hz]), hl]
      · intro row hrow
        obtain ⟨rec, hrec, hspec⟩ := hm row hrow
        exact ⟨rec, List.mem_cons_of_mem _ hrec, hspec⟩
    · rw [if_neg hz] at h
      cases hf : fetchRow r <;> rw [hf] at h
      · exact absurd h (by simp [Bind.bind, Except.bind])
      · cases hb : buildRows t <;> rw [hb] at h
        · exact absurd h (by simp [Bind.bind, Except.bind])
        · rename_i row rest
          obtain rfl := (Except.ok.inj h).symm
          obtain ⟨hl, hm⟩ := ih hb
          obtain ⟨h1, h2, h3, h4⟩ := fetchRow_spec hf
          refine ⟨?_, ?_⟩
          · rw [List.filter_cons_of_pos (by simp [hz]), List.length_cons,
              List.length_cons, hl]
          · intro x hx
            rcases List.mem_cons.1 hx with rfl | hx
            · exact ⟨r, List.mem_cons_self _ _, hz, h1, h2, h3, h4⟩
            · obtain ⟨rec, hrec, hspec⟩ := hm x hx
              exact ⟨rec, List.mem_cons_of_mem _ hrec, hspec⟩

/-- The two-record Japan example of the design document. -/
def japanRecs : List WBRecord :=
  [⟨"Japan", "JPN", "2000", .strv "4968359828197.8"⟩,
   ⟨"Japan", "JPN", "2001", .null⟩]

/-- The single tidy row the Japan example produces. -/
def japanRow : Row := ⟨"Japan", "JPN", 2000, mkRat 49683598281978 10⟩

/-- C6: every record whose value is null is skipped and every kept record
is mapped to (country.value, country.id, int(date), float(value)); on the
two-record Japan example the whole pipeline yields exactly the single
expected row, also after cleaning. -/
theorem C6_null_skipped_japan :
    (∀ (rs : List WBRecord) (rows : List Row), buildRows rs = .ok rows →
      rows.length = (rs.filter (fun r => decide (r.value ≠ Cell.null))).length ∧
      ∀ row ∈ rows, ∃ rec ∈ rs, rec.value ≠ Cell.null ∧
        row.country = rec.countryName ∧ row.iso3 = rec.countryId ∧
        pyIntOfString rec.date = some row.year ∧
        pyFloat rec.value = some row.value) ∧
    fetch_worldbank_gdp ["JPN"] 2000 2022 "NY.GDP.MKTP.CD"
      (.arr [.other, .recs japanRecs]) = .ok [japanRow] ∧
    clean_gdp (tidyToFrame [japanRow]) = .ok [japanRow] :=
  ⟨fun _ _ h => buildRows_spec h, by decide, by decide⟩

/-- C6 witness: the row-mapping part of the theorem applied to the concrete
Japan records: exactly one of the two records survives. -/
theorem C6_null_skipped_japan_witness :
    ([japanRow] : List Row).length =
      (japanRecs.filter (fun r => decide (r.value ≠ Cell.null))).length :=
  (C6_null_skipped_japan.1 japanRecs [japanRow] (by decide)).1

/-! C7: the requested range and country set. -/

theorem fetch_core_decomp {rs : List WBRecord} {out : List Row}
    (h : fetch_core rs = .ok out) :
    ∃ rows, buildRows rs = .ok rows ∧ out = sortRows rows := by
  unfold fetch_core at h
  cases hb : buildRows rs <;> rw [hb] at h
  · exact absurd h (by simp [Bind.bind, Except.bind])
  · rename_i rows
    by_cases he : rows.isEmpty <;> simp only [Bind.bind, Except.bind, he,
      if_pos, if_neg, Bool.false_eq_true, ite_false, ite_true] at h
    · exact absurd h (by simp)
    · exact ⟨rows, rfl, (Except.ok.inj h).symm⟩

/-- C7 counterexample: with the requested range 2000..2022 and country set
JPN, a response containing a 1999 record flows through fetch and clean
unfiltered, so the Cleaner's output contains a year outside the requested
range; the claimed invariant fails because the code never filters by the
request. -/
theorem C7_range_counterexample :
    fetch_worldbank_gdp ["JPN"] 2000 2022 "NY.GDP.MKTP.CD"
      (.arr [.other, .recs [⟨"Japan", "JPN", "1999", .floatv 5⟩]])
      = .ok [⟨"Japan", "JPN", 1999, 5⟩] ∧
    clean_gdp (tidyToFrame [⟨"Japan", "JPN", 1999, 5⟩])
      = .ok [⟨"Japan", "JPN", 1999, 5⟩] ∧
    ¬((2000 : ℤ) ≤ (1999 : ℤ) ∧ (1999 : ℤ) ≤ 2022) :=
  ⟨by decide, by decide, by decide⟩

/-- C7 amended: provided every non-null record of the response has a date
parsing to a year within the requested range and a country id among the
requested codes, every row of the Cleaner's output (which is the fetch
output itself, cleaning being the identity there) has its year in range
and its iso3 in the requested set. The code itself never filters, so the
proviso on the response is necessary. -/
theorem C7_range_invariant_amended (countries : List String) (sy ey : ℤ)
    (ind : String) (rs : List WBRecord) (out : List Row)
    (hok : fetch_worldbank_gdp countries sy ey ind
      (.arr [.other, .recs rs]) = .ok out)
    (hresp : ∀ rec ∈ rs, rec.value ≠ Cell.null →
      (∀ y, pyIntOfString rec.date = some y → sy ≤ y ∧ y ≤ ey) ∧
      rec.countryId ∈ countries) :
    clean_gdp (tidyToFrame out) = .ok out ∧
    ∀ row ∈ out, (sy ≤ row.year ∧ row.year ≤ ey) ∧ row.iso3 ∈ countries := by
  have hcore : fetch_core rs = .ok out := hok
  obtain ⟨rows, hb, rfl⟩ := fetch_core_decomp hcore
  refine ⟨clean_gdp_tidyToFrame (sortRows_sorted rows), ?_⟩
  intro row hrow
  have hrow2 : row ∈ rows := (sortRows_perm rows).mem_iff.1 hrow
  obtain ⟨rec, hrec, hnn, _, hiso, hy, _⟩ := (buildRows_spec hb).2 row hrow2
  obtain ⟨hr1, hr2⟩ := hresp rec hrec hnn
  exact ⟨hr1 row.year hy, hiso ▸ hr2⟩

/-- C7 amended witness: the theorem applied to the Japan records, all in
range. -/
theorem C7_range_invariant_amended_witness :
    clean_gdp (tidyToFrame [japanRow]) = .ok [japanRow] ∧
    ∀ row ∈ ([japanRow] : List Row),
      ((2000 : ℤ) ≤ row.year ∧ row.year ≤ 2022) ∧ row.iso3 ∈ ["JPN"] :=
  C7_range_invariant_amended ["JPN"] 2000 2022 "NY.GDP.MKTP.CD" japanRecs
    [japanRow] (by decide)
    (by
      intro rec hrec hnn
      rcases List.mem_cons.1 hrec with rfl | hrec
      · refine ⟨?_, by decide⟩
        intro y hy
        have he : pyIntOfString "2000" = some 2000 := by decide
        rw [he] at hy
        obtain rfl := Option.some.inj hy
        decide
      · rcases List.mem_cons.1 hrec with rfl | hrec
        · exact absurd rfl hnn
        · exact absurd hrec (List.not_mem_nil _))

/-! C8: the shape of the wide table. -/

theorem sortedYears_sorted (df : List Row) :
    (sortedYears df).Sorted (· ≤ ·) :=
  List.sorted_insertionSort _ _

theorem sortedYears_nodup (df : List Row) : (sortedYears df).Nodup :=
  ((List.perm_insertionSort _ _).nodup_iff).2 (List.nodup_dedup _)

theorem mem_sortedYears {df : List Row} {y : ℤ} :
    y ∈ sortedYears df ↔ ∃ r ∈ df, r.year = y := by
  simp [sortedYears, List.mem_insertionSort, List.mem_dedup]

theorem sortedCountries_sorted (df : List Row) :
    (sortedCountries df).Sorted strLe :=
  List.sorted_insertionSort _ _

theorem sortedCountries_nodup (df : List Row) : (sortedCountries df).Nodup :=
  ((List.perm_insertionSort _ _).nodup_iff).2 (List.nodup_dedup _)

theorem mem_sortedCountries {df : List Row} {c : String} :
    c ∈ sortedCountries df ↔ ∃ r ∈ df, r.country = c := by
  simp [sortedCountries, List.mem_insertionSort, List.mem_dedup]

theorem find_zip_map {α β : Type} [DecidableEq α] :
    ∀ (l : List α) (f : α → β) (a : α), a ∈ l →
      ((l.zip (l.map f)).find? (fun p => decide (p.1 = a))) = some (a, f a)
  | [], _, _, h => absurd h (List.not_mem_nil _)
  | x :: t, f, a, h => by
    rw [List.map_cons, List.zip_cons_cons]
    by_cases hx : x = a
    · subst hx
      rw [List.find?_cons_of_pos _ (by simp)]
    · rw [List.find?_cons_of_neg _ (by simp [hx])]
      exact find_zip_map t f a
        ((List.mem_cons.1 h).resolve_left (fun e => hx e.symm))

theorem wcell_mk {df : List Row} {y : ℤ} {c : String}
    (hy : y ∈ sortedYears df) (hc : c ∈ sortedCountries df) :
    wcell ⟨sortedYears df, sortedCountries df,
      (sortedYears df).map (fun y => (sortedCountries df).map
        (fun c => lookupVal df y c))⟩ y c = lookupVal df y c := by
  unfold wcell
  dsimp only
  rw [find_zip_map _ _ _ hy]
  dsimp only
  rw [find_zip_map _ _ _ hc]

theorem lookupVal_of_mem {df : List Row} (hn : (df.map key2).Nodup)
    {r : Row} (hr : r ∈ df) :
    lookupVal df r.year r.country = some r.value := by
  unfold lookupVal
  have hs : (df.find? (fun x =>
      decide (x.year = r.year ∧ x.country = r.country))).isSome := by
    rw [List.find?_isSome]
    exact ⟨r, hr, by simp⟩
  obtain ⟨m, hm⟩ := Option.isSome_iff_exists.1 hs
  rw [hm]
  have hmem := List.mem_of_find?_eq_some hm
  have hp := List.find?_some hm
  simp only [decide_eq_true_eq] at hp
  have he : m = r :=
    List.inj_on_of_nodup_map hn hmem hr (by simp [key2, hp.1, hp.2])
  rw [he]
  rfl

theorem lookupVal_eq_none {df : List Row} {y : ℤ} {c : String}
    (h : ∀ r ∈ df, ¬(r.year = y ∧ r.country = c)) :
    lookupVal df y c = none := by
  unfold lookupVal
  have hf : df.find? (fun x => decide (x.year = y ∧ x.country = c)) = none := by
    rw [List.find?_eq_none]
    intro x hx
    simpa using h x hx
  rw [hf]
  rfl

theorem lookupVal_some {df : List Row} {y : ℤ} {c : String} {v : ℚ}
    (h : lookupVal df y c = some v) :
    ∃ r ∈ df, r.year = y ∧ r.country = c ∧ r.value = v := by
  unfold lookupVal at h
  cases hf : df.find? (fun x => decide (x.year = y ∧ x.country = c)) <;>
    rw [hf] at h
  · exact absurd h (by simp)
  · rename_i m
    have hp := List.find?_some hf
    simp only [decide_eq_true_eq] at hp
    exact ⟨m, List.mem_of_find?_eq_some hf, hp.1, hp.2, Option.some.inj h⟩

theorem to_wide_ok_decomp {df : List Row} {w : Wide} (h : to_wide df = .ok w) :
    (df.map key2).Nodup ∧
    w = ⟨sortedYears df, sortedCountries df,
      (sortedYears df).map (fun y => (sortedCountries df).map
        (fun c => lookupVal df y c))⟩ := by
  unfold to_wide at h
  split_ifs at h with hn
  exact ⟨hn, (Except.ok.inj h).symm⟩

/-- C8: for a duplicate-free tidy table, the wide table's index is the
sorted, duplicate-free set of years of the tidy table, its column set is
the set of country names of the tidy table, each (year, country) cell
present in the tidy table holds that row's value, and each absent pair is
a missing cell. -/
theorem C8_wide_shape (df : List Row) (w : Wide) (h : to_wide df = .ok w) :
    (w.index.Sorted (· ≤ ·) ∧ w.index.Nodup ∧
      (∀ y, y ∈ w.index ↔ ∃ r ∈ df, r.year = y)) ∧
    (∀ c, c ∈ w.columns ↔ ∃ r ∈ df, r.country = c) ∧
    (∀ r ∈ df, wcell w r.year r.country = some r.value) ∧
    (∀ y c, y ∈ w.index → c ∈ w.columns →
      (∀ r ∈ df, ¬(r.year = y ∧ r.country = c)) → wcell w y c = none) := by
  obtain ⟨hn, rfl⟩ := to_wide_ok_decomp h
  refine ⟨⟨sortedYears_sorted df, sortedYears_nodup df,
    fun y => mem_sortedYears⟩, fun c => mem_sortedCountries, ?_, ?_⟩
  · intro r hr
    rw [wcell_mk (mem_sortedYears.2 ⟨r, hr, rfl⟩)
      (mem_sortedCountries.2 ⟨r, hr, rfl⟩)]
    exact lookupVal_of_mem hn hr
  · intro y c hy hc habs
    rw [wcell_mk hy hc]
    exact lookupVal_eq_none habs

/-- The two-countries, one-year tidy table of the design document's
scenario. -/
def twoTidy : List Row :=
  [⟨"Japan", "JPN", 2000, 5⟩, ⟨"USA", "USA", 2000, 7⟩]

/-- The wide table twoTidy pivots to. -/
def wideTwo : Wide := ⟨[2000], ["Japan", "USA"], [[some 5, some 7]]⟩

/-- C8 witness: the cell-content part of the theorem at the concrete
two-countries scenario. -/
theorem C8_wide_shape_witness :
    wcell wideTwo 2000 "Japan" = some 5 ∧ wcell wideTwo 2000 "USA" = some 7 :=
  ⟨(C8_wide_shape twoTidy wideTwo (by decide)).2.2.1
      ⟨"Japan", "JPN", 2000, 5⟩ (by decide),
   (C8_wide_shape twoTidy wideTwo (by decide)).2.2.1
      ⟨"USA", "USA", 2000, 7⟩ (by decide)⟩

/-! C9: no pipeline stage mutates its input. -/

theorem halloc_preserves (h : Heap) (t : Tbl) {k : ℕ} (hk : k < h.length) :
    (halloc h t).1[k]? = h[k]? :=
  List.getElem?_append_left hk

/-- C9: each of the three stage programs only reads its argument object and
allocates a fresh object for its result: every previously existing heap
cell, the argument included, is unchanged after the call, and the result id
is fresh. In particular plot_gdp applies the division by 10 ^ 12 to a new
object, leaving the wide table it received untouched. -/
theorem C9_no_mutation (h : Heap) (i : ℕ) :
    (∀ h2 j, clean_gdp_prog h i = some (h2, j) →
      (∀ k, k < h.length → h2[k]? = h[k]?) ∧ h.length ≤ j) ∧
    (∀ h2 j, to_wide_prog h i = some (h2, j) →
      (∀ k, k < h.length → h2[k]? = h[k]?) ∧ h.length ≤ j) ∧
    (∀ h2 j, plot_gdp_prog h i = some (h2, j) →
      (∀ k, k < h.length → h2[k]? = h[k]?) ∧ h2[i]? = h[i]? ∧
        h.length ≤ j) := by
  refine ⟨?_, ?_, ?_⟩
  · intro h2 j hp
    unfold clean_gdp_prog at hp
    cases hg : h[i]? <;> rw [hg] at hp <;> try dsimp only at hp
    · exact absurd hp (by simp)
    · rename_i t
      cases t <;> dsimp only at hp
      case tidy | wide => exact absurd hp (by simp)
      case frame f =>
        cases hc : clean_gdp f <;> rw [hc] at hp <;> try dsimp only at hp
        case error => exact absurd hp (by simp)
        case ok =>
          unfold halloc at hp
          injection hp with h3
          injection h3 with e1 e2
          subst e1
          subst e2
          exact ⟨fun k hk => List.getElem?_append_left hk, le_refl _⟩
  · intro h2 j hp
    unfold to_wide_prog at hp
    cases hg : h[i]? <;> rw [hg] at hp <;> try dsimp only at hp
    · exact absurd hp (by simp)
    · rename_i t
      cases t <;> dsimp only at hp
      case frame | wide => exact absurd hp (by simp)
      case tidy tt =>
        cases hc : to_wide tt <;> rw [hc] at hp <;> try dsimp only at hp
        case error => exact absurd hp (by simp)
        case ok =>
          unfold halloc at hp
          injection hp with h3
          injection h3 with e1 e2
          subst e1
          subst e2
          exact ⟨fun k hk => List.getElem?_append_left hk, le_refl _⟩
  · intro h2 j hp
    unfold plot_gdp_prog at hp
    cases hg : h[i]? <;> rw [hg] at hp <;> try dsimp only at hp
    · exact absurd hp (by simp)
    · rename_i t
      cases t <;> dsimp only at hp
      case frame | tidy => exact absurd hp (by simp)
      case wide w =>
        unfold halloc at hp
        injection hp with h3
        injection h3 with e1 e2
        subst e1
        subst e2
        have hi : i < h.length := by
          by_contra hge
          rw [List.getElem?_eq_none (Nat.le_of_not_lt hge)] at hg
          exact Option.noConfusion hg
        exact ⟨fun k hk => List.getElem?_append_left hk,
          (List.getElem?_append_left hi).trans hg, le_refl _⟩

/-- A concrete heap holding one object of each table shape. -/
def heap0 : Heap := [Tbl.frame sampleFrame, Tbl.tidy twoTidy, Tbl.wide wideTwo]

/-- C9 witness: running each stage program on heap0 leaves every one of the
three pre-existing objects unchanged. -/
theorem C9_no_mutation_witness :
    ((heap0 ++ [Tbl.tidy sampleOut] : Heap)[0]? = heap0[0]?) ∧
    ((heap0 ++ [Tbl.wide wideTwo] : Heap)[1]? = heap0[1]?) ∧
    ((heap0 ++ [Tbl.wide (scaleWide wideTwo ((10 : ℚ) ^ 12))] : Heap)[2]? =
      heap0[2]?) :=
  ⟨((C9_no_mutation heap0 0).1 (heap0 ++ [Tbl.tidy sampleOut]) 3
      (by decide)).1 0 (by decide),
   ((C9_no_mutation heap0 1).2.1 (heap0 ++ [Tbl.wide wideTwo]) 3
      (by decide)).1 1 (by decide),
   ((C9_no_mutation heap0 2).2.2
      (heap0 ++ [Tbl.wide (scaleWide wideTwo ((10 : ℚ) ^ 12))]) 3 rfl).2.1⟩

/-! C3: the melt round trip. -/

/-- Strict (country, year) order on melted long-form rows. -/
def row3Lt (a b : Row3) : Prop :=
  lexCYlt (a.country, a.year) (b.country, b.year)

instance : IsAntisymm Row3 row3Lt :=
  ⟨fun _ _ h1 h2 => (lexCYlt_asymm h1 h2).elim⟩

theorem mem_melt {w : Wide} {m : MRow} :
    m ∈ melt w ↔ ∃ c ∈ w.columns, ∃ y ∈ w.index, m = ⟨c, y, wcell w y c⟩ := by
  unfold melt
  rw [List.mem_flatten]
  constructor
  · rintro ⟨s, hsm, hm⟩
    obtain ⟨c, hc, rfl⟩ := List.mem_map.1 hsm
    obtain ⟨y, hy, rfl⟩ := List.mem_map.1 hm
    exact ⟨c, hc, y, hy, rfl⟩
  · rintro ⟨c, hc, y, hy, rfl⟩
    exact ⟨_, List.mem_map.2 ⟨c, hc, rfl⟩, List.mem_map.2 ⟨y, hy, rfl⟩⟩

theorem mem_dropMissing {l : List MRow} {x : Row3} :
    x ∈ dropMissing l ↔ ∃ m ∈ l, m.value = some x.value ∧
      m.country = x.country ∧ m.year = x.year := by
  unfold dropMissing
  rw [List.mem_filterMap]
  constructor
  · rintro ⟨m, hm, hg⟩
    rcases hv : m.value with _ | v <;> rw [hv] at hg
    · exact absurd hg (by simp)
    · rw [Option.map_some'] at hg
      obtain rfl := (Option.some.inj hg)
      exact ⟨m, hm, by rw [hv], rfl, rfl⟩
  · rintro ⟨m, hm, hv, hc, hy⟩
    refine ⟨m, hm, ?_⟩
    rw [hv, Option.map_some', hc, hy]

theorem sorted_strLt_of_sorted_nodup {l : List String} (h : l.Sorted strLe)
    (hn : l.Nodup) : l.Pairwise strLt := by
  refine (List.Pairwise.and h hn).imp ?_
  intro a b hab
  exact hab.1.resolve_right hab.2

theorem pairwise_melt {w : Wide} (hidx : w.index.Sorted (fun a b : ℤ => a ≤ b))
    (hidxn : w.index.Nodup) (hcols : w.columns.Sorted strLe)
    (hcolsn : w.columns.Nodup) :
    (melt w).Pairwise
      (fun m1 m2 => lexCYlt (m1.country, m1.year) (m2.country, m2.year)) := by
  unfold melt
  rw [List.pairwise_flatten]
  constructor
  · intro s hs2
    obtain ⟨c, _, rfl⟩ := List.mem_map.1 hs2
    rw [List.pairwise_map]
    have hlt : w.index.Pairwise (fun a b : ℤ => a < b) :=
      List.Sorted.lt_of_le hidx hidxn
    exact hlt.imp (fun hab => Or.inr ⟨rfl, hab⟩)
  · rw [List.pairwise_map]
    have hcl : w.columns.Pairwise strLt :=
      sorted_strLt_of_sorted_nodup hcols hcolsn
    refine hcl.imp ?_
    intro c1 c2 h12 x hx y hy
    obtain ⟨y1, _, rfl⟩ := List.mem_map.1 hx
    obtain ⟨y2, _, rfl⟩ := List.mem_map.1 hy
    exact Or.inl h12

theorem pairwise_dropMissing {l : List MRow} (h : l.Pairwise
    (fun m1 m2 => lexCYlt (m1.country, m1.year) (m2.country, m2.year))) :
    (dropMissing l).Pairwise row3Lt := by
  unfold dropMissing
  refine List.Pairwise.filterMap _ ?_ h
  intro m1 m2 h12 b hb b2 hb2
  rcases hv1 : m1.value with _ | v1 <;> rw [hv1] at hb
  · exact absurd hb (by simp)
  · rcases hv2 : m2.value with _ | v2 <;> rw [hv2] at hb2
    · exact absurd hb2 (by simp)
    · rw [Option.map_some', Option.mem_def] at hb hb2
      obtain rfl := (Option.some.inj hb).symm
      obtain rfl := (Option.some.inj hb2).symm
      exact h12

theorem row3Lt_ne {a b : Row3} (h : row3Lt a b) : a ≠ b := by
  rintro rfl
  exact lexCYlt_asymm h h

theorem melt_key_pairwise {df : List Row} (hs : df.Sorted rowLe)
    (hn : (df.map key2).Nodup) :
    df.Pairwise (fun a b => row3Lt (proj3 a) (proj3 b)) := by
  have hne : df.Pairwise (fun a b => key2 a ≠ key2 b) :=
    List.pairwise_map.1 hn
  refine (List.Pairwise.and hs hne).imp ?_
  intro a b hab
  refine lexCYlt_of_le_of_ne hab.1 ?_
  intro he
  have h1 : a.country = b.country := congrArg Prod.fst he
  have h2 : a.year = b.year := congrArg Prod.snd he
  exact hab.2 (by simp [key2, h1, h2])

theorem dropMissing_melt_eq {df : List Row} {w : Wide} (hs : df.Sorted rowLe)
    (hn : (df.map key2).Nodup) (hw : to_wide df = .ok w) :
    dropMissing (melt w) = df.map proj3 := by
  obtain ⟨-, rfl⟩ := to_wide_ok_decomp hw
  have hpm := pairwise_melt (w := ⟨sortedYears df, sortedCountries df,
      (sortedYears df).map (fun y => (sortedCountries df).map
        (fun c => lookupVal df y c))⟩)
    (sortedYears_sorted df) (sortedYears_nodup df)
    (sortedCountries_sorted df) (sortedCountries_nodup df)
  have hsorted1 := pairwise_dropMissing hpm
  have hsorted2 : (df.map proj3).Pairwise row3Lt :=
    List.pairwise_map.2 (melt_key_pairwise hs hn)
  have hnd1 := hsorted1.imp (fun {a b} h => row3Lt_ne h)
  have hnd2 : (df.map proj3).Nodup := hsorted2.imp (fun {a b} h => row3Lt_ne h)
  have hmem : ∀ x, x ∈ dropMissing (melt ⟨sortedYears df, sortedCountries df,
      (sortedYears df).map (fun y => (sortedCountries df).map
        (fun c => lookupVal df y c))⟩) ↔ x ∈ df.map proj3 := by
    intro x
    rw [mem_dropMissing, List.mem_map]
    constructor
    · rintro ⟨m, hm, hval, hcountry, hyear⟩
      obtain ⟨c, hc, y, hy, rfl⟩ := mem_melt.1 hm
      have hval2 : lookupVal df y c = some x.value := by
        rw [← wcell_mk hy hc]
        exact hval
      obtain ⟨r, hr, hry, hrc, hrv⟩ := lookupVal_some hval2
      refine ⟨r, hr, ?_⟩
      have hc2 : c = x.country := hcountry
      have hy2 : y = x.year := hyear
      cases x
      simp only [proj3, Row3.mk.injEq]
      exact ⟨hrc.trans hc2, hry.trans hy2, hrv⟩
    · rintro ⟨r, hr, rfl⟩
      have hy := mem_sortedYears.2 ⟨r, hr, rfl⟩
      have hc := mem_sortedCountries.2 ⟨r, hr, rfl⟩
      refine ⟨⟨r.country, r.year, wcell ⟨sortedYears df, sortedCountries df,
          (sortedYears df).map (fun y => (sortedCountries df).map
            (fun c => lookupVal df y c))⟩ r.year r.country⟩,
        mem_melt.2 ⟨r.country, hc, r.year, hy, rfl⟩, ?_, rfl, rfl⟩
      show wcell _ r.year r.country = some (proj3 r).value
      rw [wcell_mk hy hc]
      exact lookupVal_of_mem hn hr
  exact List.eq_of_perm_of_sorted
    ((List.perm_ext_iff_of_nodup hnd1 hnd2).2 hmem) hsorted1 hsorted2

theorem sortRows3_eq_of_sorted {l : List Row3} (h : l.Sorted row3Le) :
    sortRows3 l = l :=
  h.insertionSort_eq

/-- C3 counterexample: on a one-row tidy table the round trip succeeds but
produces a long-form table with columns year, country, value; the iso3
column of the tidy table is not represented in the wide table, so the
round trip does not reproduce the original tidy table exactly, only its
(country, year, value) projection. -/
theorem C3_roundtrip_counterexample :
    (roundTrip tinyTidy).map meltedToFrame ≠ .ok (tidyToFrame tinyTidy) ∧
    roundTrip tinyTidy = .ok (tinyTidy.map proj3) :=
  ⟨by decide, by decide⟩

/-- C3 amended: for every tidy table sorted by (country, year) with no
duplicate (country, year) pair, pivoting to wide form, melting back to
long form, dropping missing cells and re-sorting by (country, year) with
contiguous re-indexing reproduces exactly the (country, year, value)
projection of the original tidy table (iso3, absent from the wide table,
is lost). -/
theorem C3_roundtrip_projected (df : List Row) (hs : df.Sorted rowLe)
    (hn : (df.map key2).Nodup) :
    roundTrip df = .ok (df.map proj3) := by
  have hw : to_wide df = .ok ⟨sortedYears df, sortedCountries df,
      (sortedYears df).map (fun y => (sortedCountries df).map
        (fun c => lookupVal df y c))⟩ := by
    unfold to_wide
    rw [if_pos hn]
  unfold roundTrip
  rw [hw]
  show Except.ok (sortRows3 (dropMissing (melt _))) = _
  rw [dropMissing_melt_eq hs hn hw, sortRows3_eq_of_sorted
    ((List.pairwise_map.2 (melt_key_pairwise hs hn)).imp
      (fun {a b} h => lexCY_of_lt h))]

/-- C3 witness: the amended round trip at the two-countries scenario
table. -/
theorem C3_roundtrip_projected_witness :
    roundTrip twoTidy = .ok (twoTidy.map proj3) :=
  C3_roundtrip_projected twoTidy (by decide) (by decide)

end GdpTrackr
